import Mathlib

/-!
Verification development for the single-file chat application `chat_app.py`:
a FastAPI relay endpoint (`chat`), a pure thinking-block extractor
(`process_thinking_response`), and a Streamlit submission callback
(`submit_message`) that maintains the session transcript (`chat_history`).

The Python source is shallowly embedded: strings are `String`/`List Char`,
JSON dictionaries become structures with `Option` fields for possibly missing
keys, the external HTTP world is an explicit parameter, and exception control
flow becomes explicit sum types.
-/

namespace ChatApp

/-! ## Data model: roles and turns (the message dictionaries of the source) -/

inductive Role where
  | user
  | assistant
deriving DecidableEq

/-- One chat message dictionary: a role plus a content string. -/
structure Turn where
  role : Role
  content : String
deriving DecidableEq

/-! ## Python string trimming (`str.strip()`), used at several places -/

/-- The ASCII whitespace characters removed by Python's `str.strip()`. -/
def isPySpace (c : Char) : Bool :=
  c = ' ' || c = '\t' || c = '\n' || c = '\r' || c = '\x0b' || c = '\x0c'

/-- `str.strip()` on a character list: drop whitespace at both ends. -/
def trimChars (s : List Char) : List Char :=
  ((s.dropWhile isPySpace).reverse.dropWhile isPySpace).reverse

/-- `str.strip()` on strings. -/
def pyStrip (s : String) : String :=
  String.mk (trimChars s.data)

/-! ## Thinking-block extractor (`process_thinking_response`, lines 76-85)

The Python code matches the regex `<think>(.*?)</think>` with `re.DOTALL`:
the literal open tag, a shortest (non-greedy) inner text spanning newlines,
then the literal close tag.  `re.search` yields the leftmost match;
`re.sub` removes every non-overlapping match, scanning left to right. -/

def openTag : List Char := "<think>".data

def closeTag : List Char := "</think>".data

/-- Leftmost occurrence of the literal `pat` inside a string:
returns `some (pre, post)` with the input equal to `pre ++ pat ++ post`
and `pre` shortest, or `none` when `pat` does not occur. -/
def splitAtSub (pat : List Char) : List Char → Option (List Char × List Char)
  | [] => if pat.isEmpty then some ([], []) else none
  | c :: cs =>
    if pat.isPrefixOf (c :: cs) then
      some ([], List.drop pat.length (c :: cs))
    else
      match splitAtSub pat cs with
      | some (pre, post) => some (c :: pre, post)
      | none => none

/-- The leftmost match of `<think>(.*?)</think>`: the first open tag, paired
with the nearest close tag after it.  If the first open tag (hence every open
tag) has no close tag after it, the pattern does not match, mirroring
`re.search` returning `None`. -/
def findMatch (s : List Char) : Option (List Char × List Char × List Char) :=
  match splitAtSub openTag s with
  | none => none
  | some (pre, rest) =>
    match splitAtSub closeTag rest with
    | none => none
    | some (inner, post) => some (pre, inner, post)

/-- Fuelled left-to-right removal of every non-overlapping match, as
`re.sub(pattern, '', s)` performs; after a match is removed the scan resumes
after the match in the original string.  The fuel only serves termination:
`removeAllFuel_fuel_irrelevant` below shows any fuel of at least the string
length gives the same answer. -/
def removeAllFuel : Nat → List Char → List Char
  | 0, s => s
  | Nat.succ n, s =>
    match findMatch s with
    | none => s
    | some (pre, _, post) => pre ++ removeAllFuel n post

/-- `re.sub(r'<think>(.*?)</think>', '', s, flags=re.DOTALL)`. -/
def removeAll (s : List Char) : List Char :=
  removeAllFuel s.length s

/-- Lines 76-85 of `chat_app.py`: on a match return the stripped inner text of
the first region and the response with every region removed and stripped;
otherwise return no reasoning and the response unchanged. -/
def process_thinking_response (response : String) :
    Option String × String :=
  match findMatch response.data with
  | some (_, inner, _) =>
    (some (String.mk (trimChars inner)),
     String.mk (trimChars (removeAll response.data)))
  | none => (none, response)

/-! ## Model registry (lines 36-43) -/

def AVAILABLE_MODELS : List (String × String) :=
  [("Llama 3.3 70B", "llama-3.3-70b-versatile"),
   ("Llama 3.1 8B", "llama-3.1-8b-instant"),
   ("DeepSeek R1 Distill Qwen 32B", "deepseek-r1-distill-qwen-32b"),
   ("Llama Guard 3 8B", "llama-guard-3-8b")]

def THINKING_MODELS : List String := ["deepseek-r1-distill-qwen-32b"]

/-! ## Completion gateway: the FastAPI `/chat` endpoint (lines 45-73) -/

/-- The JSON body of a `/chat` request: `message` and `model` may be absent
(`request.get` returns `None`), `history` defaults to `[]`. -/
structure ChatRequest where
  message : Option String
  history : List Turn
  model : Option String

/-- The JSON payload sent to the provider (lines 57-61). -/
structure Payload where
  model : String
  messages : List Turn
  temperature : Rat
deriving DecidableEq

/-- The provider's `message` object; `content` may be missing. -/
structure ProviderMessage where
  content : Option String
deriving DecidableEq

/-- One element of the provider's `choices` array; `message` may be missing. -/
structure ProviderChoice where
  message : Option ProviderMessage
deriving DecidableEq

/-- The parsed provider response body; `choices` may be missing. -/
structure ProviderBody where
  choices : Option (List ProviderChoice)
deriving DecidableEq

/-- Outcome of the provider HTTP call at line 65: either `requests.post`
raises (network error), or an HTTP response arrives with a status code and
either a parsed JSON body or (`none`) an unparseable one, in which case
`response.json()` raises a `RequestException` subclass. -/
inductive ProviderResult where
  | netError
  | httpResponse (status : Nat) (body : Option ProviderBody)
deriving DecidableEq

/-- Observable outcome of the `/chat` endpoint: a 200 JSON reply, an
`HTTPException` with status and detail, or an uncaught exception
(e.g. `IndexError` on an empty `choices` list at line 68). -/
inductive ChatOutcome where
  | ok (response : String) (history : List Turn)
  | httpError (status : Nat) (detail : String)
  | crash
deriving DecidableEq

/-- Line 68: `data.get("choices", [{}])[0].get("message", {}).get("content",
"No response")`.  A missing `choices`, `message` or `content` key degrades to
the placeholder; a present-but-empty `choices` list raises `IndexError`
(`none`). -/
def extractReply (body : ProviderBody) : Option String :=
  match body.choices with
  | none => some "No response"
  | some [] => none
  | some (c :: _) =>
    match c.message with
    | none => some "No response"
    | some pm => some (pm.content.getD "No response")

/-- Lines 46-61: read the request fields, reject a missing or empty
`message` (`if not user_message`), otherwise build the provider payload
from the history plus the new user turn, the requested model (defaulting to
`llama-3.3-70b-versatile`) and temperature 0.7. -/
def chatPayload (req : ChatRequest) : Option Payload :=
  match req.message with
  | none => none
  | some m =>
    if m = "" then none
    else
      some ⟨req.model.getD "llama-3.3-70b-versatile",
            req.history ++ [⟨Role.user, m⟩],
            (0.7 : Rat)⟩

/-- Lines 64-73: `raise_for_status` raises for statuses in [400, 600), an
unparseable body raises when `response.json()` runs, and both raises (as well
as a network error) are caught as `RequestException` and turned into
`HTTPException(500)`.  Otherwise the reply is extracted and returned with the
extended history. -/
def handleProviderResult (messages : List Turn) (pr : ProviderResult) :
    ChatOutcome :=
  match pr with
  | .netError => .httpError 500 "Failed to fetch response from LLM"
  | .httpResponse st bodyOpt =>
    if 400 ≤ st ∧ st < 600 then
      .httpError 500 "Failed to fetch response from LLM"
    else
      match bodyOpt with
      | none => .httpError 500 "Failed to fetch response from LLM"
      | some body =>
        match extractReply body with
        | none => .crash
        | some reply => .ok reply (messages ++ [⟨Role.assistant, reply⟩])

/-- The `/chat` endpoint (lines 45-73), with the external provider passed in
as a function from the payload actually posted to its result. -/
def chat (req : ChatRequest) (provider : Payload → ProviderResult) :
    ChatOutcome :=
  match chatPayload req with
  | none => .httpError 400 "Missing \x27message\x27 in request"
  | some payload => handleProviderResult payload.messages (provider payload)

/-! ## Frontend submission callback (`submit_message`, lines 229-255) -/

/-- Outcome of the frontend's `requests.post` to the gateway at line 237:
either some `RequestException` is raised (network failure, or a body that is
not JSON), or a response arrives with a status code and an optional
`response` field in its JSON body.  The source never inspects the status. -/
inductive HttpResult where
  | exception
  | response (status : Nat) (respField : Option String)
deriving DecidableEq

/-- Lines 229-255: if the stripped input is empty nothing happens; otherwise
the stripped input is posted together with the current history and model.
On a `RequestException` an error is shown and the history is untouched; on
any response the `response` field (defaulting to the string
`Error fetching response`) is appended as the assistant turn after the user
turn. -/
def submit_message (input : String) (chat_history : List Turn)
    (model_name : String) (post : ChatRequest → HttpResult) : List Turn :=
  if pyStrip input = "" then chat_history
  else
    let user_message := pyStrip input
    match post ⟨some user_message, chat_history, some model_name⟩ with
    | .exception => chat_history
    | .response _ respField =>
      chat_history ++
        [⟨Role.user, user_message⟩,
         ⟨Role.assistant, respField.getD "Error fetching response"⟩]

/-- The gateway as seen over HTTP by the frontend: a success becomes a 200
body whose `response` field is the reply; an `HTTPException` becomes a JSON
body holding only `detail` (so no `response` field); an uncaught exception
becomes FastAPI's plain-text 500 `Internal Server Error`, on which the
frontend's `response.json()` raises — a `RequestException` at the caller. -/
def gatewayHttp (req : ChatRequest) (provider : Payload → ProviderResult) :
    HttpResult :=
  match chat req provider with
  | .ok resp _ => .response 200 (some resp)
  | .httpError st _ => .response st none
  | .crash => .exception

/-- The reachable states of `st.session_state["chat_history"]`: it is
initialised to `[]` (line 161) and mutated only by `submit_message`
(lines 252-253). -/
inductive Reachable : List Turn → Prop
  | init : Reachable []
  | step (input model_name : String) (post : ChatRequest → HttpResult)
      (h : List Turn) : Reachable h →
      Reachable (submit_message input h model_name post)

/-- Modelled from the spec: the Transcript Store error taxonomy names
`InvalidTurn` for an append of a turn whose content is empty after trimming.
The source has no named store API; its only append path is guarded by the
emptiness check at line 230. -/
inductive StoreError where
  | invalidTurn
deriving DecidableEq

/-- Modelled from the spec: `append(turn)` of section 4.1 — no validation
beyond requiring non-empty content; fails with `InvalidTurn` if content is
empty after trimming whitespace, otherwise appends the turn. -/
def appendTurn (store : List Turn) (t : Turn) :
    Except StoreError (List Turn) :=
  if pyStrip t.content = "" then .error .invalidTurn
  else .ok (store ++ [t])

/-! ## Lemmas about substring search -/

theorem isPrefixOf_append_drop :
    ∀ (p s : List Char), p.isPrefixOf s = true →
      s = p ++ List.drop p.length s := by
  intro p
  induction p with
  | nil => intro s _; simp
  | cons a as ih =>
    intro s hp
    cases s with
    | nil => simp [List.isPrefixOf] at hp
    | cons b bs =>
      have hsplit : (a == b) = true ∧ as.isPrefixOf bs = true := by
        simpa [List.isPrefixOf, Bool.and_eq_true] using hp
      have hab : a = b := by simpa using hsplit.1
      subst hab
      have htail := ih bs hsplit.2
      simpa [List.length_cons, List.drop_succ_cons] using
        congrArg (fun l => a :: l) htail

theorem isPrefixOf_of_append (p t : List Char) :
    p.isPrefixOf (p ++ t) = true := by
  induction p with
  | nil => simp [List.isPrefixOf]
  | cons a as ih => simp [List.isPrefixOf, ih]

/-- A successful `splitAtSub` is a decomposition of the input. -/
theorem splitAtSub_eq (pat : List Char) :
    ∀ (s pre post : List Char), splitAtSub pat s = some (pre, post) →
      s = pre ++ pat ++ post := by
  intro s
  induction s with
  | nil =>
    intro pre post h
    simp only [splitAtSub] at h
    split at h
    · rename_i hemp
      have hpat : pat = [] := by simpa using hemp
      have hpp : ([] : List Char) = pre ∧ ([] : List Char) = post := by
        simpa using h
      simp [hpat, ← hpp.1, ← hpp.2]
    · exact absurd h (by simp)
  | cons c cs ih =>
    intro pre post h
    simp only [splitAtSub] at h
    split at h
    · rename_i hpre
      have hpp : ([] : List Char) = pre ∧
          List.drop pat.length (c :: cs) = post := by simpa using h
      have := isPrefixOf_append_drop pat (c :: cs) hpre
      rw [← hpp.1, ← hpp.2, List.nil_append]
      exact this
    · rename_i hpre
      split at h
      · rename_i pre1 post1 hrec
        have hpp : c :: pre1 = pre ∧ post1 = post := by simpa using h
        have := ih pre1 post1 hrec
        rw [← hpp.1, ← hpp.2]
        simpa using congrArg (fun l => c :: l) this
      · exact absurd h (by simp)

/-- The `pre` part of a successful `splitAtSub` is shortest among all
decompositions: the occurrence found is the leftmost. -/
theorem splitAtSub_min (pat : List Char) :
    ∀ (s pre post : List Char), splitAtSub pat s = some (pre, post) →
      ∀ a b, s = a ++ pat ++ b → pre.length ≤ a.length := by
  intro s
  induction s with
  | nil =>
    intro pre post h a b heq
    simp only [splitAtSub] at h
    split at h
    · have hpp : ([] : List Char) = pre ∧ ([] : List Char) = post := by
        simpa using h
      simp [← hpp.1]
    · exact absurd h (by simp)
  | cons c cs ih =>
    intro pre post h a b heq
    simp only [splitAtSub] at h
    split at h
    · have hpp : ([] : List Char) = pre ∧
          List.drop pat.length (c :: cs) = post := by simpa using h
      simp [← hpp.1]
    · rename_i hpre
      split at h
      · rename_i pre1 post1 hrec
        have hpp : c :: pre1 = pre ∧ post1 = post := by simpa using h
        cases a with
        | nil =>
          exfalso
          have : pat.isPrefixOf (c :: cs) = true := by
            have : c :: cs = pat ++ b := by simpa using heq
            rw [this]; exact isPrefixOf_of_append pat b
          exact hpre this
        | cons a0 a1 =>
          have htail : cs = a1 ++ pat ++ b := by
            have := heq
            simp only [List.cons_append, List.append_assoc] at this ⊢
            exact (List.cons.injEq _ _ _ _).mp this |>.2
          have := ih pre1 post1 hrec a1 b (by
            simpa [List.append_assoc] using htail)
          rw [← hpp.1]
          simpa using Nat.succ_le_succ this
      · exact absurd h (by simp)

/-- A failed `splitAtSub` means `pat` occurs nowhere in the input. -/
theorem splitAtSub_none (pat : List Char) :
    ∀ (s : List Char), splitAtSub pat s = none →
      ∀ a b, s ≠ a ++ pat ++ b := by
  intro s
  induction s with
  | nil =>
    intro h a b heq
    simp only [splitAtSub] at h
    have ha : a = [] ∧ pat = [] ∧ b = [] := by
      have := heq.symm
      simp only [List.append_assoc, List.append_eq_nil] at this
      exact ⟨this.1, this.2.1, this.2.2⟩
    rw [ha.2.1] at h
    simp at h
  | cons c cs ih =>
    intro h a b heq
    simp only [splitAtSub] at h
    split at h
    · exact absurd h (by simp)
    · rename_i hpre
      cases a with
      | nil =>
        have : pat.isPrefixOf (c :: cs) = true := by
          have hc : c :: cs = pat ++ b := by simpa using heq
          rw [hc]; exact isPrefixOf_of_append pat b
        exact hpre this
      | cons a0 a1 =>
        have hrec : splitAtSub pat cs = none := by
          revert h
          cases hsp : splitAtSub pat cs with
          | none => intro _; rfl
          | some pr => intro h; exact absurd h (by simp)
        have htail : cs = a1 ++ pat ++ b := by
          have := heq
          simp only [List.cons_append, List.append_assoc] at this
          have := (List.cons.injEq _ _ _ _).mp this |>.2
          simpa [List.append_assoc] using this
        exact ih hrec a1 b htail

/-! ## Lemmas about the leftmost regex match and global removal -/

/-- A successful `findMatch` decomposes the input around one region. -/
theorem findMatch_eq (s pre inner post : List Char)
    (h : findMatch s = some (pre, inner, post)) :
    s = pre ++ openTag ++ inner ++ closeTag ++ post := by
  unfold findMatch at h
  cases h1 : splitAtSub openTag s with
  | none => simp [h1] at h
  | some pr1 =>
    obtain ⟨pre1, rest⟩ := pr1
    simp only [h1] at h
    cases h2 : splitAtSub closeTag rest with
    | none => simp [h2] at h
    | some pr2 =>
      obtain ⟨inner1, post1⟩ := pr2
      simp only [h2] at h
      have hpp : pre1 = pre ∧ inner1 = inner ∧ post1 = post := by
        simpa using h
      obtain ⟨rfl, rfl, rfl⟩ := hpp
      have e1 := splitAtSub_eq openTag s pre1 rest h1
      have e2 := splitAtSub_eq closeTag rest inner1 post1 h2
      rw [e1, e2]
      simp [List.append_assoc]

/-- The suffix after a match is strictly shorter than the input. -/
theorem findMatch_post_lt (s pre inner post : List Char)
    (h : findMatch s = some (pre, inner, post)) :
    post.length < s.length := by
  have he := findMatch_eq s pre inner post h
  have h7 : openTag.length = 7 := rfl
  have h8 : closeTag.length = 8 := rfl
  rw [he]
  simp only [List.length_append, h7, h8]
  omega

/-- Any fuel at least the length of the string computes the same removal:
the fuel in `removeAllFuel` is irrelevant, so `removeAll` is the genuine
fixpoint semantics of `re.sub`. -/
theorem removeAllFuel_fuel_irrelevant :
    ∀ (n m : Nat) (s : List Char), s.length ≤ n → s.length ≤ m →
      removeAllFuel n s = removeAllFuel m s := by
  intro n
  induction n with
  | zero =>
    intro m s hn _
    have hs : s = [] := List.eq_nil_of_length_eq_zero (Nat.le_zero.mp hn)
    subst hs
    cases m with
    | zero => rfl
    | succ m1 => simp [removeAllFuel, findMatch, splitAtSub, openTag]
  | succ n1 ih =>
    intro m s hn hm
    cases hfm : findMatch s with
    | none =>
      cases m with
      | zero =>
        have hs : s = [] := List.eq_nil_of_length_eq_zero (Nat.le_zero.mp hm)
        subst hs; rfl
      | succ m1 => simp [removeAllFuel, hfm]
    | some tr =>
      obtain ⟨pre, inner, post⟩ := tr
      have hlt := findMatch_post_lt s pre inner post hfm
      cases m with
      | zero =>
        exfalso
        have : s = [] := List.eq_nil_of_length_eq_zero (Nat.le_zero.mp hm)
        subst this
        simp at hlt
      | succ m1 =>
        simp only [removeAllFuel, hfm]
        have h1 : post.length ≤ n1 := by omega
        have h2 : post.length ≤ m1 := by omega
        rw [ih m1 post h1 h2]

/-! ## Claims about the thinking-block extractor -/

/-- Claim C1: for every string with at least one complete
`<think>...</think>` region, `process_thinking_response` captures as
reasoning the trimmed inner text of the first region — the returned
decomposition has the leftmost open tag and the nearest close tag after
it — and as visible answer the input with every occurrence of the pattern
removed by the left-to-right global substitution (`removeAll`), then
trimmed.  In particular on the spec's two-region example both regions are
absent from the visible answer (the open tag no longer occurs anywhere in
it) and only the first region is captured as reasoning. -/
theorem process_thinking_first_region_global_removal :
    (∀ (raw : String) (a b c : List Char),
        raw.data = a ++ openTag ++ b ++ closeTag ++ c →
        ∃ pre inner post,
          raw.data = pre ++ openTag ++ inner ++ closeTag ++ post ∧
          (∀ x y, raw.data = x ++ openTag ++ y → pre.length ≤ x.length) ∧
          (∀ x y, inner ++ closeTag ++ post = x ++ closeTag ++ y →
            inner.length ≤ x.length) ∧
          process_thinking_response raw =
            (some (String.mk (trimChars inner)),
             String.mk (trimChars (removeAll raw.data)))) ∧
    process_thinking_response "<think>a</think>mid<think>b</think>end" =
      (some "a", "midend") ∧
    (∀ x y, ("midend" : String).data ≠ x ++ openTag ++ y) := by
  refine ⟨?_, by decide, fun x y => splitAtSub_none openTag _ (by decide) x y⟩
  intro raw a b c hdec
  cases h1 : splitAtSub openTag raw.data with
  | none =>
    exact absurd (by simpa [List.append_assoc] using hdec)
      (splitAtSub_none openTag raw.data h1 a (b ++ closeTag ++ c))
  | some pr1 =>
    obtain ⟨pre1, rest⟩ := pr1
    have e1 := splitAtSub_eq openTag raw.data pre1 rest h1
    have hmin1 := splitAtSub_min openTag raw.data pre1 rest h1
    have hplen : pre1.length ≤ a.length :=
      hmin1 a (b ++ closeTag ++ c) (by simpa [List.append_assoc] using hdec)
    have hrest : List.drop (pre1 ++ openTag).length raw.data = rest := by
      conv_lhs => rw [e1]
      exact List.drop_left _ _
    have hdec2 : raw.data = (a ++ openTag ++ b) ++ (closeTag ++ c) := by
      simp only [List.append_assoc] at hdec ⊢
      exact hdec
    have hk : (pre1 ++ openTag).length ≤ (a ++ openTag ++ b).length := by
      simp only [List.length_append]
      omega
    have hdrop : List.drop (pre1 ++ openTag).length raw.data =
        List.drop (pre1 ++ openTag).length (a ++ openTag ++ b) ++
          (closeTag ++ c) := by
      conv_lhs => rw [hdec2]
      exact List.drop_append_of_le_length hk
    have hclose : rest =
        List.drop (pre1 ++ openTag).length (a ++ openTag ++ b) ++
          closeTag ++ c := by
      rw [← hrest, hdrop]
      simp [List.append_assoc]
    cases h2 : splitAtSub closeTag rest with
    | none => exact absurd hclose (splitAtSub_none closeTag rest h2 _ c)
    | some pr2 =>
      obtain ⟨inner1, post1⟩ := pr2
      have e2 := splitAtSub_eq closeTag rest inner1 post1 h2
      have hmin2 := splitAtSub_min closeTag rest inner1 post1 h2
      have hfm : findMatch raw.data = some (pre1, inner1, post1) := by
        simp only [findMatch, h1, h2]
      refine ⟨pre1, inner1, post1, ?_, ?_, ?_, ?_⟩
      · rw [e1, e2]
        simp [List.append_assoc]
      · exact fun x y hxy => hmin1 x y hxy
      · exact fun x y hxy => hmin2 x y (e2.trans hxy)
      · simp only [process_thinking_response, hfm]

/-- Witness for C1 at the spec's own example `<think>abc</think>def`. -/
theorem process_thinking_first_region_witness :
    ∃ pre inner post,
      ("<think>abc</think>def" : String).data =
        pre ++ openTag ++ inner ++ closeTag ++ post ∧
      (∀ x y, ("<think>abc</think>def" : String).data =
          x ++ openTag ++ y → pre.length ≤ x.length) ∧
      (∀ x y, inner ++ closeTag ++ post = x ++ closeTag ++ y →
        inner.length ≤ x.length) ∧
      process_thinking_response "<think>abc</think>def" =
        (some (String.mk (trimChars inner)),
         String.mk (trimChars
           (removeAll ("<think>abc</think>def" : String).data))) :=
  process_thinking_first_region_global_removal.1 "<think>abc</think>def"
    [] "abc".data "def".data (by decide)

/-- Claim C6: on every string with no complete `<think>...</think>` region —
in particular an unterminated open tag — `process_thinking_response` returns
no reasoning and the input unchanged.  (It is a total function, so no input
makes it throw.) -/
theorem process_thinking_no_region_unchanged (raw : String)
    (h : ¬ ∃ pre inner post : List Char,
        raw.data = pre ++ openTag ++ inner ++ closeTag ++ post) :
    process_thinking_response raw = (none, raw) := by
  cases hfm : findMatch raw.data with
  | some tr =>
    obtain ⟨pre, inner, post⟩ := tr
    exact absurd ⟨pre, inner, post, findMatch_eq _ _ _ _ hfm⟩ h
  | none => simp [process_thinking_response, hfm]

/-- Witness for C6 at the spec's own example `<think>unterminated`. -/
theorem process_thinking_no_region_witness :
    process_thinking_response "<think>unterminated" =
      (none, "<think>unterminated") :=
  process_thinking_no_region_unchanged "<think>unterminated"
    (fun hEx => by
      obtain ⟨pre, inner, post, hdec⟩ := hEx
      exact splitAtSub_none closeTag ("<think>unterminated" : String).data
        (by decide) (pre ++ openTag ++ inner) post hdec)

/-! ## Claims about the `/chat` gateway -/

/-- Counterexample to claim C3 as stated: a non-2xx provider status — here
300 — does not make `raise_for_status` raise (it raises only for statuses
in [400, 600)), so with a usable body the gateway returns the assistant
reply instead of failing with the 500 error. -/
theorem chat_status300_returns_reply :
    chat ⟨some "hi", [], none⟩
        (fun _ => .httpResponse 300 (some ⟨some [⟨some ⟨some "ok"⟩⟩]⟩)) =
      .ok "ok" [⟨Role.user, "hi"⟩, ⟨Role.assistant, "ok"⟩] ∧
    chat ⟨some "hi", [], none⟩
        (fun _ => .httpResponse 300 (some ⟨some [⟨some ⟨some "ok"⟩⟩]⟩)) ≠
      .httpError 500 "Failed to fetch response from LLM" := by
  constructor <;> decide

/-- Claim C3 amended: for every `/chat` request with a non-empty message
whose provider call ends in a transport error — a network error, or a body
that is not parseable JSON (at any status), on which `response.json()`
raises — or a 4xx/5xx status (the statuses `raise_for_status` raises on),
the gateway answers with the HTTP 500 `HTTPException` carrying the fixed
detail string, and returns no assistant turn. -/
theorem chat_provider_failure_http500 (m : String) (h : List Turn)
    (mo : Option String) (pr : ProviderResult) (hm : m ≠ "")
    (hpr : pr = .netError ∨
      (∃ st, pr = .httpResponse st none) ∨
      ∃ st body, pr = .httpResponse st body ∧ 400 ≤ st ∧ st < 600) :
    chat ⟨some m, h, mo⟩ (fun _ => pr) =
      .httpError 500 "Failed to fetch response from LLM" ∧
    ∀ r hist, chat ⟨some m, h, mo⟩ (fun _ => pr) ≠ .ok r hist := by
  have hmain : chat ⟨some m, h, mo⟩ (fun _ => pr) =
      .httpError 500 "Failed to fetch response from LLM" := by
    rcases hpr with rfl | ⟨st, rfl⟩ | ⟨st, body, rfl, hst1, hst2⟩
    · simp [chat, chatPayload, hm, handleProviderResult]
    · by_cases hc : 400 ≤ st ∧ st < 600 <;>
        simp [chat, chatPayload, hm, handleProviderResult, hc]
    · simp [chat, chatPayload, hm, handleProviderResult, hst1, hst2]
  refine ⟨hmain, fun r hist hc => ?_⟩
  rw [hmain] at hc
  exact absurd hc (by simp)

/-- Witness for the amended C3: a network error on a concrete request. -/
theorem chat_provider_failure_http500_witness :
    chat ⟨some "hi", [], none⟩ (fun _ : Payload => ProviderResult.netError) =
      .httpError 500 "Failed to fetch response from LLM" ∧
    ∀ r hist, chat ⟨some "hi", [], none⟩ (fun _ : Payload => ProviderResult.netError) ≠
      .ok r hist :=
  chat_provider_failure_http500 "hi" [] none ProviderResult.netError
    (by decide) (Or.inl rfl)

/-- Counterexample to claim C4 as stated: its quantification covers every
successful provider response without usable textual content, but on the
body with a present-and-empty `choices` list, line 68's
`data.get("choices", [{}])[0]` raises an uncaught `IndexError` — the
exchange fails instead of producing the assistant turn with the
`No response` placeholder. -/
theorem chat_empty_choices_crashes :
    chat ⟨some "hi", [], none⟩
        (fun _ => .httpResponse 200 (some ⟨some []⟩)) = .crash ∧
    chat ⟨some "hi", [], none⟩
        (fun _ => .httpResponse 200 (some ⟨some []⟩)) ≠
      .ok "No response"
        ([] ++ [⟨Role.user, "hi"⟩] ++ [⟨Role.assistant, "No response"⟩]) := by
  constructor <;> decide

/-- Claim C4 amended: when the provider call succeeds (status below 400,
parseable body) and no usable textual content is present because the
`choices` key is missing, the first choice's `message` is missing, or that
message's `content` is missing, the gateway returns an assistant turn whose
content is the fixed placeholder `No response` instead of failing the
exchange; a present-but-empty `choices` list, however, raises an uncaught
`IndexError` and fails the exchange. -/
theorem chat_no_usable_content_placeholder (m : String) (h : List Turn)
    (mo : Option String) (st : Nat) (body : ProviderBody) (hm : m ≠ "")
    (hst : st < 400)
    (hbody : body.choices = none ∨
      (∃ c cs, body.choices = some (c :: cs) ∧ c.message = none) ∨
      (∃ c cs pm, body.choices = some (c :: cs) ∧ c.message = some pm ∧
        pm.content = none)) :
    chat ⟨some m, h, mo⟩ (fun _ => .httpResponse st (some body)) =
      .ok "No response"
        (h ++ [⟨Role.user, m⟩] ++ [⟨Role.assistant, "No response"⟩]) ∧
    chat ⟨some m, h, mo⟩ (fun _ => .httpResponse st (some ⟨some []⟩)) =
      .crash := by
  have hrep : extractReply body = some "No response" := by
    rcases hbody with hch | ⟨c, cs, hch, hmsg⟩ | ⟨c, cs, pm, hch, hmsg, hco⟩
    · simp [extractReply, hch]
    · simp [extractReply, hch, hmsg]
    · simp [extractReply, hch, hmsg, hco]
  have hcond : ¬ (400 ≤ st ∧ st < 600) := by omega
  constructor
  · simp [chat, chatPayload, hm, handleProviderResult, hcond, hrep]
  · simp [chat, chatPayload, hm, handleProviderResult, hcond, extractReply]

/-- Witness for the amended C4: a body with no `choices` key on a concrete
request, and the empty-`choices` body on the same request. -/
theorem chat_no_usable_content_witness :
    (chat ⟨some "hi", [], none⟩ (fun _ => .httpResponse 200 (some ⟨none⟩)) =
      .ok "No response"
        ([] ++ [⟨Role.user, "hi"⟩] ++ [⟨Role.assistant, "No response"⟩])) ∧
    chat ⟨some "hi", [], none⟩
        (fun _ => .httpResponse 200 (some ⟨some []⟩)) = .crash :=
  chat_no_usable_content_placeholder "hi" [] none 200 ⟨none⟩
    (by decide) (by omega) (Or.inl rfl)

/-- Claim C5: for every transcript and non-empty user message, the gateway
builds the provider payload as exactly the transcript turns followed by one
new user turn, with the selected model identifier (defaulting when absent)
and the fixed temperature 0.7, and hands exactly that payload to the
provider, its result deciding the outcome. -/
theorem chat_payload_construction (m : String) (h : List Turn)
    (mo : Option String) (provider : Payload → ProviderResult)
    (hm : m ≠ "") :
    chatPayload ⟨some m, h, mo⟩ =
      some ⟨mo.getD "llama-3.3-70b-versatile", h ++ [⟨Role.user, m⟩],
        (0.7 : Rat)⟩ ∧
    chat ⟨some m, h, mo⟩ provider =
      handleProviderResult (h ++ [⟨Role.user, m⟩])
        (provider ⟨mo.getD "llama-3.3-70b-versatile",
          h ++ [⟨Role.user, m⟩], (0.7 : Rat)⟩) := by
  have hpay : chatPayload ⟨some m, h, mo⟩ =
      some ⟨mo.getD "llama-3.3-70b-versatile", h ++ [⟨Role.user, m⟩],
        (0.7 : Rat)⟩ := by
    simp [chatPayload, hm]
  exact ⟨hpay, by simp [chat, hpay]⟩

/-- Witness for C5 on a concrete request and provider. -/
theorem chat_payload_construction_witness :
    chatPayload ⟨some "hi", [⟨Role.user, "a"⟩, ⟨Role.assistant, "b"⟩],
        some "llama-3.1-8b-instant"⟩ =
      some ⟨(some "llama-3.1-8b-instant").getD "llama-3.3-70b-versatile",
        [⟨Role.user, "a"⟩, ⟨Role.assistant, "b"⟩] ++ [⟨Role.user, "hi"⟩],
        (0.7 : Rat)⟩ ∧
    chat ⟨some "hi", [⟨Role.user, "a"⟩, ⟨Role.assistant, "b"⟩],
        some "llama-3.1-8b-instant"⟩ (fun _ : Payload => ProviderResult.netError) =
      handleProviderResult
        ([⟨Role.user, "a"⟩, ⟨Role.assistant, "b"⟩] ++ [⟨Role.user, "hi"⟩])
        ((fun _ : Payload => ProviderResult.netError)
          ⟨(some "llama-3.1-8b-instant").getD "llama-3.3-70b-versatile",
           [⟨Role.user, "a"⟩, ⟨Role.assistant, "b"⟩] ++ [⟨Role.user, "hi"⟩],
           (0.7 : Rat)⟩) :=
  chat_payload_construction "hi" [⟨Role.user, "a"⟩, ⟨Role.assistant, "b"⟩]
    (some "llama-3.1-8b-instant") (fun _ : Payload => ProviderResult.netError)
    (by decide)

/-- Claim C10: a `/chat` request that omits the `model` field uses the
provider identifier `llama-3.3-70b-versatile`: that is the model of the
payload built for the provider call. -/
theorem chat_default_model (m : String) (h : List Turn)
    (provider : Payload → ProviderResult) (hm : m ≠ "") :
    chatPayload ⟨some m, h, none⟩ =
      some ⟨"llama-3.3-70b-versatile", h ++ [⟨Role.user, m⟩], (0.7 : Rat)⟩ ∧
    chat ⟨some m, h, none⟩ provider =
      handleProviderResult (h ++ [⟨Role.user, m⟩])
        (provider ⟨"llama-3.3-70b-versatile", h ++ [⟨Role.user, m⟩],
          (0.7 : Rat)⟩) := by
  have hpay : chatPayload ⟨some m, h, none⟩ =
      some ⟨"llama-3.3-70b-versatile", h ++ [⟨Role.user, m⟩],
        (0.7 : Rat)⟩ := by
    simp [chatPayload, hm]
  exact ⟨hpay, by simp [chat, hpay]⟩

/-- Witness for C10 on a concrete request. -/
theorem chat_default_model_witness :
    chatPayload ⟨some "hey", [], none⟩ =
      some ⟨"llama-3.3-70b-versatile", [] ++ [⟨Role.user, "hey"⟩],
        (0.7 : Rat)⟩ ∧
    chat ⟨some "hey", [], none⟩ (fun _ : Payload => ProviderResult.netError) =
      handleProviderResult ([] ++ [⟨Role.user, "hey"⟩])
        ((fun _ : Payload => ProviderResult.netError)
          ⟨"llama-3.3-70b-versatile", [] ++ [⟨Role.user, "hey"⟩],
           (0.7 : Rat)⟩) :=
  chat_default_model "hey" [] (fun _ : Payload => ProviderResult.netError) (by decide)

/-! ## Claims about the frontend submission callback and the transcript -/

/-- Counterexample to claim C2 as stated: the frontend never checks the
gateway's status code, so a gateway call that ends in a provider-side
failure — the gateway's HTTP 500, whose JSON body has `detail` but no
`response` field — still appends a user turn and an assistant turn holding
the fallback text, changing the Transcript Store. -/
theorem submit_gateway_500_appends_fallback :
    submit_message "Hello" [] "llama-3.3-70b-versatile"
        (fun _ => .response 500 none) =
      [⟨Role.user, "Hello"⟩,
       ⟨Role.assistant, "Error fetching response"⟩] ∧
    submit_message "Hello" [] "llama-3.3-70b-versatile"
        (fun _ => .response 500 none) ≠ [] := by
  constructor <;> decide

/-- Claim C2 amended: when the gateway call raises a `RequestException`
(network error or unparseable body) the caller surfaces the error and
appends nothing, leaving the Transcript Store exactly as before; but when
the gateway answers with any status whose JSON body lacks a `response`
field (such as its 500 failure response), the caller appends the user turn
and an assistant turn with the fallback text `Error fetching response`. -/
theorem submit_failure_store_behavior :
    (∀ (input : String) (h : List Turn) (m : String),
        submit_message input h m (fun _ => .exception) = h) ∧
    (∀ (input : String) (h : List Turn) (m : String) (st : Nat),
        pyStrip input ≠ "" →
        submit_message input h m (fun _ => .response st none) =
          h ++ [⟨Role.user, pyStrip input⟩,
                ⟨Role.assistant, "Error fetching response"⟩]) := by
  constructor
  · intro input h m
    unfold submit_message
    by_cases hc : pyStrip input = ""
    · rw [if_pos hc]
    · rw [if_neg hc]
  · intro input h m st hne
    unfold submit_message
    rw [if_neg hne]
    rfl

/-- Witness for the amended C2: the exception leg on concrete inputs. -/
theorem submit_failure_store_witness :
    submit_message "Hello" [⟨Role.user, "a"⟩, ⟨Role.assistant, "b"⟩]
        "llama-3.3-70b-versatile" (fun _ => HttpResult.exception) =
      [⟨Role.user, "a"⟩, ⟨Role.assistant, "b"⟩] :=
  submit_failure_store_behavior.1 "Hello"
    [⟨Role.user, "a"⟩, ⟨Role.assistant, "b"⟩] "llama-3.3-70b-versatile"

/-- Claim C7: a turn whose content is empty after trimming is rejected: the
spec-modelled `append` fails with `InvalidTurn` and produces no new store,
and the source's only append path (`submit_message`, whose guard at line 230
realises the check) leaves the transcript exactly unchanged, so its length
is unchanged. -/
theorem append_empty_content_rejected (store : List Turn) (t : Turn)
    (input model : String) (h : List Turn)
    (post : ChatRequest → HttpResult)
    (ht : pyStrip t.content = "") (hin : pyStrip input = "") :
    appendTurn store t = Except.error StoreError.invalidTurn ∧
    submit_message input h model post = h := by
  constructor
  · simp [appendTurn, ht]
  · unfold submit_message
    rw [if_pos hin]

/-- Witness for C7 on whitespace-only content and input. -/
theorem append_empty_content_rejected_witness :
    appendTurn [⟨Role.user, "a"⟩] ⟨Role.user, "  "⟩ =
      Except.error StoreError.invalidTurn ∧
    submit_message " \t " [⟨Role.user, "a"⟩] "llama-3.3-70b-versatile"
        (fun _ => HttpResult.exception) = [⟨Role.user, "a"⟩] :=
  append_empty_content_rejected [⟨Role.user, "a"⟩] ⟨Role.user, "  "⟩
    " \t " "llama-3.3-70b-versatile" [⟨Role.user, "a"⟩]
    (fun _ => HttpResult.exception) (by decide) (by decide)

/-- Claim C8: submitting `Hello` with an empty transcript through the
in-process gateway, with the (non-reasoning) default model and a successful
provider response, ends with exactly two turns: the user turn `Hello`
followed by the assistant turn, in that order. -/
theorem submit_hello_end_to_end (st : Nat) (body : ProviderBody)
    (reply : String) (hst : st < 400)
    (hreply : extractReply body = some reply) :
    submit_message "Hello" [] "llama-3.3-70b-versatile"
        (fun req => gatewayHttp req
          (fun _ => .httpResponse st (some body))) =
      [⟨Role.user, "Hello"⟩, ⟨Role.assistant, reply⟩] ∧
    ("Llama 3.3 70B", "llama-3.3-70b-versatile") ∈ AVAILABLE_MODELS ∧
    "llama-3.3-70b-versatile" ∉ THINKING_MODELS := by
  refine ⟨?_, by decide, by decide⟩
  have hps : pyStrip "Hello" = "Hello" := rfl
  have hcond : ¬ (400 ≤ st ∧ st < 600) := by omega
  have hchat : chat ⟨some "Hello", [], some "llama-3.3-70b-versatile"⟩
      (fun _ => .httpResponse st (some body)) =
      .ok reply [⟨Role.user, "Hello"⟩, ⟨Role.assistant, reply⟩] := by
    simp [chat, chatPayload, handleProviderResult, hcond, hreply]
  have hgw : gatewayHttp ⟨some "Hello", [], some "llama-3.3-70b-versatile"⟩
      (fun _ => .httpResponse st (some body)) =
      .response 200 (some reply) := by
    simp [gatewayHttp, hchat]
  simp [submit_message, hps, hgw]

/-- Witness for C8 with a concrete successful provider body. -/
theorem submit_hello_end_to_end_witness :
    submit_message "Hello" [] "llama-3.3-70b-versatile"
        (fun req => gatewayHttp req
          (fun _ => .httpResponse 200
            (some ⟨some [⟨some ⟨some "Hi there"⟩⟩]⟩))) =
      [⟨Role.user, "Hello"⟩, ⟨Role.assistant, "Hi there"⟩] ∧
    ("Llama 3.3 70B", "llama-3.3-70b-versatile") ∈ AVAILABLE_MODELS ∧
    "llama-3.3-70b-versatile" ∉ THINKING_MODELS :=
  submit_hello_end_to_end 200 ⟨some [⟨some ⟨some "Hi there"⟩⟩]⟩ "Hi there"
    (by omega) rfl

/-- Every run of `submit_message` either leaves the transcript unchanged or
appends exactly one user turn (holding the stripped input) immediately
followed by one assistant turn. -/
theorem submit_message_cases (input : String) (h : List Turn)
    (model : String) (post : ChatRequest → HttpResult) :
    submit_message input h model post = h ∨
    ∃ reply, submit_message input h model post =
      h ++ [⟨Role.user, pyStrip input⟩, ⟨Role.assistant, reply⟩] := by
  by_cases hc : pyStrip input = ""
  · left
    unfold submit_message
    rw [if_pos hc]
  · cases hp : post ⟨some (pyStrip input), h, some model⟩ with
    | exception =>
      left
      unfold submit_message
      rw [if_neg hc]
      simp only [hp]
    | response st rf =>
      right
      refine ⟨rf.getD "Error fetching response", ?_⟩
      unfold submit_message
      rw [if_neg hc]
      simp only [hp]

/-- Appending a user turn then an assistant turn preserves even length and
user/assistant alternation. -/
theorem alternating_append_pair (h : List Turn) (u a : Turn)
    (hu : u.role = Role.user) (ha : a.role = Role.assistant)
    (hlen : h.length % 2 = 0)
    (halt : ∀ i (hi : i < h.length),
      h[i].role = if i % 2 = 0 then Role.user else Role.assistant) :
    (h ++ [u, a]).length % 2 = 0 ∧
    ∀ i (hi : i < (h ++ [u, a]).length),
      (h ++ [u, a])[i].role =
        if i % 2 = 0 then Role.user else Role.assistant := by
  constructor
  · simp only [List.length_append, List.length_cons, List.length_nil]
    omega
  · intro i hi
    have hlen2 : (h ++ [u, a]).length = h.length + 2 := by
      simp [List.length_append]
    by_cases h1 : i < h.length
    · rw [List.getElem_append_left h1]
      exact halt i h1
    · have h2 : h.length ≤ i := Nat.le_of_not_lt h1
      rw [List.getElem_append_right h2]
      rcases (show i = h.length ∨ i = h.length + 1 by
        rw [hlen2] at hi; omega) with h3 | h3
      · have hz : i - h.length = 0 := by omega
        have hpar : i % 2 = 0 := by omega
        simp [hz, hpar, hu]
      · have hz : i - h.length = 1 := by omega
        have hpar : ¬ (i % 2 = 0) := by omega
        simp [hz, hpar, ha]

/-- Claim C9: every reachable state of `chat_history` has even length and
strictly alternates roles, the turn at every even index being a user turn
and at every odd index an assistant turn, because the only mutation path
appends one user turn immediately followed by one assistant turn. -/
theorem chat_history_even_alternating (h : List Turn)
    (hr : Reachable h) :
    h.length % 2 = 0 ∧
    ∀ i (hi : i < h.length),
      h[i].role = if i % 2 = 0 then Role.user else Role.assistant := by
  induction hr with
  | init => exact ⟨rfl, fun i hi => absurd hi (by simp)⟩
  | step input model post h0 hr0 ih =>
    rcases submit_message_cases input h0 model post with heq | ⟨reply, heq⟩
    · rw [heq]
      exact ih
    · rw [heq]
      exact alternating_append_pair h0 _ _ rfl rfl ih.1 ih.2

/-- Witness for C9 at the initial reachable state. -/
theorem chat_history_even_alternating_witness :
    ([] : List Turn).length % 2 = 0 ∧
    ∀ i (hi : i < ([] : List Turn).length),
      (([] : List Turn)[i]).role =
        if i % 2 = 0 then Role.user else Role.assistant :=
  chat_history_even_alternating [] Reachable.init

end ChatApp
